import Mathlib

/-!
Shallow embedding of the IIS log converter in src/app.py: the line parser
parse_iis_log (directive handling, data-line splitting, malformed-line
diagnostics, the fatal-error conditions), the field-coercion stages
(numeric casts, the time-taken millisecond-to-second rescale, datetime
synthesis) and the aggregation views generate_summary, create_pivot_table
and get_error_apps, together with theorems settling the specification
claims about them.

Numbers parsed by pd.to_numeric are modelled as rationals; datetimes as a
record of calendar fields.  The input to the parser is the list of lines
produced by decode(...).splitlines() - the permissive byte decoding never
fails and is not modelled further.
-/

set_option maxRecDepth 8192

deriving instance DecidableEq for Except

namespace IISLog

/-- ASCII whitespace recognised by the python str.split() and str.strip()
calls in app.py (a newline never occurs inside a line after splitlines). -/
def isWSChar (c : Char) : Bool :=
  c = ' ' || c = '\t' || c = '\r' || c = '\x0b' || c = '\x0c'

/-- Helper for splitWS: walks the characters, accumulating the current
token in reverse. -/
def splitWSGo : List Char → List Char → List String
  | [], acc => if acc.isEmpty then [] else [String.mk acc.reverse]
  | c :: cs, acc =>
    if isWSChar c then
      if acc.isEmpty then splitWSGo cs []
      else String.mk acc.reverse :: splitWSGo cs []
    else splitWSGo cs (c :: acc)

/-- python str.split() with no separator argument: split on runs of
whitespace, producing no empty tokens. -/
def splitWS (s : String) : List String := splitWSGo s.data []

/-- python str.startswith. -/
def strStartsWith (s pre : String) : Bool := pre.data.isPrefixOf s.data

/-- python s[:n] - the first n characters of s. -/
def strTake (s : String) (n : ℕ) : String := String.mk (s.data.take n)

/-- Truthiness of python line.strip(): true iff some character of the line
is not whitespace. -/
def hasNonWS (s : String) : Bool := s.data.any (fun c => !isWSChar c)

/-- Helper for digitsToNat: left fold over decimal digits; none as soon as
a non-digit character occurs. -/
def digitsToNatGo : List Char → ℕ → Option ℕ
  | [], n => some n
  | c :: cs, n =>
    if c.isDigit then digitsToNatGo cs (n * 10 + (c.toNat - 48)) else none

/-- A non-empty all-digit run read as a number; none otherwise. -/
def digitsToNat (cs : List Char) : Option ℕ :=
  if cs.isEmpty then none else digitsToNatGo cs 0

/-- pd.to_numeric(value, errors=coerce) applied to one token: an optional
sign followed by decimal digits with an optional fraction part yields the
exact rational value; any other token coerces to the null marker none. -/
def toNumeric (s : String) : Option ℚ :=
  let (sgn, body) : ℚ × List Char :=
    match s.data with
    | '-' :: r => (-1, r)
    | '+' :: r => (1, r)
    | cs => (1, cs)
  let ip := body.takeWhile (fun c => c ≠ '.')
  match body.dropWhile (fun c => c ≠ '.') with
  | [] => (digitsToNat ip).map (fun n => sgn * n)
  | _ :: frac =>
    if ip.isEmpty && frac.isEmpty then none
    else
      match digitsToNatGo ip 0, digitsToNatGo frac 0 with
      | some i, some f =>
        some (sgn * ((i : ℚ) + (f : ℚ) / (10 : ℚ) ^ frac.length))
      | _, _ => none

/-- A parsed timestamp (the datetime values synthesised from the date and
time columns). -/
structure DateTimeV where
  year : ℕ
  month : ℕ
  day : ℕ
  hour : ℕ
  minute : ℕ
  second : ℕ
deriving DecidableEq

/-- Split a character list on a separator character (python str.split with
an explicit separator: empty pieces are kept). -/
def splitOnChar (sep : Char) : List Char → List (List Char)
  | [] => [[]]
  | c :: cs =>
    if c = sep then [] :: splitOnChar sep cs
    else
      match splitOnChar sep cs with
      | [] => [[c]]
      | g :: gs => (c :: g) :: gs

/-- pd.to_datetime(d + " " + t, errors=coerce) for the YYYY-MM-DD HH:MM:SS
texts the code expects (its own error message names this format); any
combination that does not parse yields the null marker none. -/
def parseDT (s : String) : Option DateTimeV :=
  match splitWS s with
  | [d, t] =>
    match splitOnChar '-' d.data, splitOnChar ':' t.data with
    | [y, mo, da], [h, mi, se] =>
      match digitsToNat y, digitsToNat mo, digitsToNat da,
            digitsToNat h, digitsToNat mi, digitsToNat se with
      | some yv, some mov, some dav, some hv, some miv, some sev =>
        if 1 ≤ mov ∧ mov ≤ 12 ∧ 1 ≤ dav ∧ dav ≤ 31 ∧
           hv ≤ 23 ∧ miv ≤ 59 ∧ sev ≤ 59 then
          some ⟨yv, mov, dav, hv, miv, sev⟩
        else none
      | _, _, _, _, _, _ => none
    | _, _ => none
  | _ => none

/-- The required field set checked against every #Fields: directive
(python set literal in parse_iis_log). -/
def requiredFields : List String :=
  ["date", "time", "sc-status", "time-taken", "cs-uri-stem"]

/-- One skip diagnostic, as emitted by the st.warning call for a malformed
data line: the 1-based line number, the first 50 characters of the line,
the expected token count (current schema length) and the actual count. -/
structure Diag where
  lineNo : ℕ
  excerpt : String
  expected : ℕ
  got : ℕ
deriving DecidableEq

/-- The loop state of parse_iis_log: the current schema (python variable
fields, initially None), the accepted raw rows (python list data) and the
skip diagnostics issued so far. -/
structure PState where
  fields : Option (List String)
  data : List (List String)
  diags : List Diag
deriving DecidableEq

/-- The fatal errors parse_iis_log can raise: the missing-required-fields
ValueError from a #Fields: directive, the invalid-format-or-no-data
ValueError, and the abort (st.error followed by st.stop) when every
synthesised datetime is null. -/
inductive PErr where
  | schemaErr : List String → PErr
  | formatErr : PErr
  | datetimeErr : PErr
deriving DecidableEq

/-- One iteration of the line loop of parse_iis_log on line index i
(0-based; diagnostics report i+1 as in the python f-string). -/
def step (i : ℕ) (line : String) (s : PState) : Except PErr PState :=
  if strStartsWith line "#" then
    if strStartsWith line "#Fields:" then
      let fs := (splitWS line).drop 1
      if requiredFields.all (fun r => fs.contains r) then
        .ok { s with fields := some fs }
      else
        .error (.schemaErr (requiredFields.filter (fun r => !fs.contains r)))
    else .ok s
  else
    match s.fields with
    | some fs =>
      if !fs.isEmpty && hasNonWS line then
        let row := splitWS line
        if row.length = fs.length then .ok { s with data := s.data ++ [row] }
        else
          .ok { s with
                diags := s.diags ++ [⟨i + 1, strTake line 50, fs.length, row.length⟩] }
      else .ok s
    | none => .ok s

/-- The whole line loop of parse_iis_log, threading the loop state through
step and aborting at the first raised error. -/
def runLines : ℕ → PState → List String → Except PErr PState
  | _, s, [] => .ok s
  | i, s, line :: rest =>
    match step i line s with
    | .error e => .error e
    | .ok s' => runLines (i + 1) s' rest

/-- Truthiness of the python variable fields (None and the empty list are
falsy). -/
def fieldsTruthy : Option (List String) → Bool
  | none => false
  | some fs => !fs.isEmpty

/-- The numeric_cols list of parse_iis_log. -/
def numericCols : List String :=
  ["s-port", "sc-status", "sc-substatus", "sc-win32-status",
   "sc-bytes", "cs-bytes", "time-taken"]

/-- One cell of the canonical table: an untouched string column value, a
coerced numeric value (none is the NaN marker), or a synthesised datetime
(none is the NaT marker). -/
inductive Cell where
  | str : String → Cell
  | num : Option ℚ → Cell
  | dt : Option DateTimeV → Cell
deriving DecidableEq

/-- The pd.to_numeric pass over one raw row: every cell whose column name
is in numeric_cols is coerced, the rest stay strings. -/
def coerceNumRow (fs : List String) (raw : List String) : List Cell :=
  List.zipWith
    (fun n v => if n ∈ numericCols then Cell.num (toNumeric v) else Cell.str v)
    fs raw

/-- The millisecond-to-second pass (df of time-taken divided by 1000.0),
applied after numeric coercion; it maps the numeric value of every
time-taken cell and leaves nulls null. -/
def rescaleRow (fs : List String) (cells : List Cell) : List Cell :=
  List.zipWith
    (fun n c =>
      if n = "time-taken" then
        match c with
        | Cell.num o => Cell.num (o.map (fun q => q / 1000))
        | c => c
      else c)
    fs cells

/-- Column access on a raw row by field name (first occurrence, as pandas
column selection on the string columns date and time). -/
def rawGet (fs : List String) (raw : List String) (name : String) : Option String :=
  raw.get? (fs.indexOf name)

/-- The datetime synthesised for one record: parse the concatenation
date ++ " " ++ time, null when either column value is out of range. -/
def synthDT (fs : List String) (raw : List String) : Option DateTimeV :=
  match rawGet fs raw "date", rawGet fs raw "time" with
  | some d, some t => parseDT (d ++ " " ++ t)
  | _, _ => none

/-- The full synthesised datetime column over the accepted raw rows. -/
def dtColumn (fs : List String) (data : List (List String)) : List (Option DateTimeV) :=
  data.map (synthDT fs)

/-- The canonical table: the schema (with the datetime column appended
when synthesised) and the coerced rows. -/
structure CanonTable where
  schema : List String
  rows : List (List Cell)
deriving DecidableEq

/-- The field-coercion stage of parse_iis_log: numeric casts, the
time-taken rescale, and - when both date and time are in the schema - the
appended datetime column.  It touches cells only and keeps one output row
per input row. -/
def coerceTable (fs : List String) (data : List (List String)) : CanonTable :=
  let base := data.map (fun raw => rescaleRow fs (coerceNumRow fs raw))
  if "date" ∈ fs ∧ "time" ∈ fs then
    ⟨fs ++ ["datetime"],
     List.zipWith (fun r o => r ++ [Cell.dt o]) base (dtColumn fs data)⟩
  else ⟨fs, base⟩

/-- parse_iis_log: run the line loop, raise the invalid-format error when
no truthy schema or no accepted row remains, coerce, and abort when the
datetime column was synthesised but every value in it is null.  On success
it returns the canonical table together with the skip diagnostics. -/
def parseIISLog (lines : List String) : Except PErr (CanonTable × List Diag) :=
  match runLines 0 ⟨none, [], []⟩ lines with
  | .error e => .error e
  | .ok s =>
    if fieldsTruthy s.fields = false ∨ s.data = [] then .error .formatErr
    else
      match s.fields with
      | none => .error .formatErr
      | some fs =>
        let t := coerceTable fs s.data
        if ("date" ∈ fs ∧ "time" ∈ fs) ∧
           (dtColumn fs s.data).all (fun o => o.isNone) then
          .error .datetimeErr
        else .ok (t, s.diags)

/-- The number of data lines the loop subjects to the token-count check: a
line neither blank nor a directive, at a point where a truthy schema has
already been declared (the boolean tracks whether a #Fields: directive has
been seen). -/
def countDataLines : Bool → List String → ℕ
  | _, [] => 0
  | seen, l :: ls =>
    if strStartsWith l "#" then
      countDataLines (seen || strStartsWith l "#Fields:") ls
    else if seen && hasNonWS l then 1 + countDataLines seen ls
    else countDataLines seen ls

/-- The projection of one canonical-table row that the aggregation views
read: the coerced sc-status, the cs-uri-stem string and the rescaled
time-taken value (none is the null marker in the numeric columns). -/
structure DRow where
  scStatus : Option ℚ
  csUriStem : String
  timeTaken : Option ℚ
deriving DecidableEq

/-- A tabular view handed to the aggregation functions: the column-name
list of the underlying frame and its rows. -/
structure DF where
  cols : List String
  rows : List DRow
deriving DecidableEq

/-- Insert into a sorted list (helper for sortL). -/
def insSorted {α : Type} [LinearOrder α] (a : α) : List α → List α
  | [] => [a]
  | b :: bs => if a ≤ b then a :: b :: bs else b :: insSorted a bs

/-- Insertion sort; pandas groupby and pivot_table list their group keys
in ascending order. -/
def sortL {α : Type} [LinearOrder α] : List α → List α
  | [] => []
  | a :: as => insSorted a (sortL as)

/-- Aggregation max over the non-null values of a group; none (NaN) when
the group holds no non-null value. -/
def maxOpt (l : List ℚ) : Option ℚ :=
  match l with
  | [] => none
  | v :: vs => some (vs.foldl max v)

/-- Aggregation min over the non-null values of a group. -/
def minOpt (l : List ℚ) : Option ℚ :=
  match l with
  | [] => none
  | v :: vs => some (vs.foldl min v)

/-- Aggregation mean over the non-null values of a group. -/
def meanOpt (l : List ℚ) : Option ℚ :=
  match l with
  | [] => none
  | _ => some (l.sum / l.length)

/-- One row of the status summary produced by generate_summary. -/
structure SRow where
  status : ℚ
  count : ℕ
  avgTime : Option ℚ
  maxTime : Option ℚ
  minTime : Option ℚ
deriving DecidableEq

/-- generate_summary: df.groupby(sc-status).agg(count, avg, max, min of
time-taken).  pandas groupby drops every row whose group key is null and
lists the remaining distinct keys in ascending order; count is the size
of the group (all its rows), while the time aggregates skip null
time-taken values. -/
def generateSummary (df : DF) : List SRow :=
  (sortL (df.rows.filterMap DRow.scStatus).dedup).map (fun s =>
    let g := df.rows.filter (fun r => r.scStatus == some s)
    ⟨s, g.length, meanOpt (g.filterMap DRow.timeTaken),
     maxOpt (g.filterMap DRow.timeTaken), minOpt (g.filterMap DRow.timeTaken)⟩)

/-- The boolean mask df of sc-status greater-equal 500 used by
get_error_apps; a null status compares false in pandas. -/
def isErrRow (r : DRow) : Bool :=
  match r.scStatus with
  | some q => decide (500 ≤ q)
  | none => false

/-- One row of the error rollup produced by get_error_apps. -/
structure ERow where
  endpoint : String
  errorCount : ℕ
  avgTime : Option ℚ
  maxTime : Option ℚ
deriving DecidableEq

/-- get_error_apps: filter to sc-status greater-equal 500; when the
filtered frame is empty return None, otherwise group by cs-uri-stem and
aggregate error_count (group size), avg and max of time-taken. -/
def getErrorApps (df : DF) : Option (List ERow) :=
  let errors := df.rows.filter isErrRow
  if errors.isEmpty then none
  else
    some ((sortL (errors.map DRow.csUriStem).dedup).map (fun e =>
      let g := errors.filter (fun r => r.csUriStem == e)
      ⟨e, g.length, meanOpt (g.filterMap DRow.timeTaken),
       maxOpt (g.filterMap DRow.timeTaken)⟩))

/-- One pivot cell for an endpoint/status pair: the count of non-null
time-taken values in the pair group, and the mean and max over those
values, with the fill_value 0 replacing an empty (hence NaN) cell. -/
structure PCell where
  status : ℚ
  cnt : ℕ
  meanFilled : ℚ
  maxFilled : ℚ
deriving DecidableEq

/-- One endpoint row of the pivot, holding a cell per observed status. -/
structure PRow where
  endpoint : String
  cells : List PCell
deriving DecidableEq

/-- The endpoint-by-status pivot: the observed statuses (the column keys)
and one row per observed endpoint. -/
structure Pivot where
  statuses : List ℚ
  prows : List PRow
deriving DecidableEq

/-- The aggregation of one endpoint/status pair of the pivot. -/
def cellAgg (rows : List DRow) (e : String) (s : ℚ) : PCell :=
  let vs := (rows.filter
      (fun r => r.csUriStem == e && r.scStatus == some s)).filterMap DRow.timeTaken
  ⟨s, vs.length,
   if vs.isEmpty then 0 else vs.sum / vs.length,
   (maxOpt vs).getD 0⟩

/-- create_pivot_table: pd.pivot_table with values time-taken, index
cs-uri-stem, columns sc-status, aggfunc count, mean and max, and
fill_value 0.  pandas raises a KeyError when one of the named columns is
absent from the frame; a row whose sc-status is null carries a null group
key and is dropped, and the observed keys are listed in ascending
order. -/
def createPivotTable (df : DF) : Except String Pivot :=
  if "cs-uri-stem" ∈ df.cols then
    if "sc-status" ∈ df.cols then
      if "time-taken" ∈ df.cols then
        let keyed := df.rows.filter (fun r => r.scStatus.isSome)
        let endpoints := sortL (keyed.map DRow.csUriStem).dedup
        let statuses := sortL (df.rows.filterMap DRow.scStatus).dedup
        .ok ⟨statuses, endpoints.map (fun e => ⟨e, statuses.map (cellAgg df.rows e)⟩)⟩
      else .error "KeyError: time-taken"
    else .error "KeyError: sc-status"
  else .error "KeyError: cs-uri-stem"

/-- The call site of create_pivot_table (app.py line 210): the pivot is
soft-skipped, with None in place of a table, exactly when cs-uri-stem is
absent from the frame; in every other case create_pivot_table itself runs
and its outcome - table or raised KeyError - is the outcome of the
step. -/
def pivotStep (df : DF) : Except String (Option Pivot) :=
  if "cs-uri-stem" ∈ df.cols then (createPivotTable df).map some
  else .ok none

/-! Basic lemmas about the sorting helper and the directive tests. -/

theorem insSorted_perm {α : Type} [LinearOrder α] (a : α) (l : List α) :
    List.Perm (insSorted a l) (a :: l) := by
  induction l with
  | nil => simp [insSorted]
  | cons b bs ih =>
    by_cases h : a ≤ b
    · simp [insSorted, h]
    · simp only [insSorted, if_neg h]
      exact ((ih.cons b).trans (List.Perm.swap a b bs))

theorem sortL_perm {α : Type} [LinearOrder α] (l : List α) :
    List.Perm (sortL l) l := by
  induction l with
  | nil => simp [sortL]
  | cons a as ih => exact (insSorted_perm a (sortL as)).trans (ih.cons a)

theorem mem_sortL {α : Type} [LinearOrder α] {a : α} {l : List α} :
    a ∈ sortL l ↔ a ∈ l := (sortL_perm l).mem_iff

theorem nodup_sortL {α : Type} [LinearOrder α] {l : List α} (h : l.Nodup) :
    (sortL l).Nodup := ((sortL_perm l).nodup_iff).mpr h

theorem length_sortL {α : Type} [LinearOrder α] (l : List α) :
    (sortL l).length = l.length := (sortL_perm l).length_eq

/-- A line that starts with the fields directive marker starts with the
comment marker. -/
theorem hash_of_fieldsDir {l : String} (h : strStartsWith l "#Fields:" = true) :
    strStartsWith l "#" = true := by
  unfold strStartsWith at *
  rw [List.isPrefixOf_iff_prefix] at *
  exact List.IsPrefix.trans ⟨"Fields:".data, by decide⟩ h

/-! Lemmas about one loop iteration (step) and the whole line loop
(runLines) of parse_iis_log. -/

theorem step_fields {i : ℕ} {l : String} {s s₁ : PState} (h : step i l s = .ok s₁) :
    s₁.fields = if strStartsWith l "#Fields:" = true then some ((splitWS l).drop 1)
                else s.fields := by
  unfold step at h
  split at h
  · split at h
    · dsimp only at h
      split at h
      · cases h
        simp_all
      · cases h
    · cases h
      simp_all
  · next hnh =>
    have h2 : strStartsWith l "#Fields:" = false := by
      cases hfd : strStartsWith l "#Fields:"
      · rfl
      · exact absurd (hash_of_fieldsDir hfd) hnh
    rw [if_neg (by simp [h2])]
    split at h
    · split at h
      · dsimp only at h
        split at h <;> (cases h; rfl)
      · cases h; rfl
    · cases h; rfl

theorem step_error {i : ℕ} {l : String} {s : PState} {e : PErr}
    (h : step i l s = .error e) : ∃ ms, e = .schemaErr ms := by
  unfold step at h
  split at h
  · split at h
    · dsimp only at h
      split at h
      · cases h
      · cases h
        exact ⟨_, rfl⟩
    · cases h
  · split at h
    · split at h
      · dsimp only at h
        split at h <;> cases h
      · cases h
    · cases h

theorem step_truthy {i : ℕ} {l : String} {s s₁ : PState} (h : step i l s = .ok s₁) :
    fieldsTruthy s₁.fields = (fieldsTruthy s.fields || strStartsWith l "#Fields:") := by
  unfold step at h
  split at h
  · split at h
    · next hfd =>
      dsimp only at h
      split at h
      · next hall =>
        cases h
        have hmem : ((splitWS l).drop 1).contains "date" = true := by
          have := List.all_eq_true.mp hall "date" (by simp [requiredFields])
          simpa using this
        have hne : ((splitWS l).drop 1).isEmpty = false := by
          cases hl : (splitWS l).drop 1 with
          | nil => rw [hl] at hmem; simp [List.contains] at hmem
          | cons a as => simp [List.isEmpty]
        have hred : fieldsTruthy (some ((splitWS l).drop 1)) = !((splitWS l).drop 1).isEmpty := rfl
        show fieldsTruthy (some ((splitWS l).drop 1)) = _
        rw [hred, hne, hfd]
        simp
      · cases h
    · next hfd =>
      cases h
      simp [Bool.eq_false_iff.mpr hfd]
  · next hnh =>
    have h2 : strStartsWith l "#Fields:" = false := by
      cases hfd : strStartsWith l "#Fields:"
      · rfl
      · exact absurd (hash_of_fieldsDir hfd) hnh
    have hfe : s₁.fields = s.fields := by
      split at h
      · split at h
        · dsimp only at h
          split at h <;> (cases h; rfl)
        · cases h; rfl
      · cases h; rfl
    simp [hfe, h2]

theorem step_effect {i : ℕ} {l : String} {s s₁ : PState} (h : step i l s = .ok s₁) :
    s₁.data.length + s₁.diags.length =
      s.data.length + s.diags.length +
        (if strStartsWith l "#" = true then 0
         else if fieldsTruthy s.fields && hasNonWS l then 1 else 0) := by
  unfold step at h
  split at h
  · next hh =>
    rw [if_pos hh]
    split at h
    · dsimp only at h
      split at h
      · cases h; rfl
      · cases h
    · cases h; rfl
  · next hnh =>
    rw [if_neg hnh]
    split at h
    · next fs hfs =>
      rw [hfs]
      split at h
      · next hcond =>
        simp only [fieldsTruthy, hcond, if_pos]
        dsimp only at h
        split at h <;> (cases h; simp +arith)
      · next hcond =>
        cases h
        simp only [fieldsTruthy]
        rw [if_neg (by simpa using hcond)]
        omega
    · next hfs =>
      cases h
      rw [hfs]
      simp [fieldsTruthy]

theorem step_diags {i : ℕ} {l : String} {s s₁ : PState} (h : step i l s = .ok s₁) :
    s₁.diags = s.diags ∨
      (strStartsWith l "#" = false ∧ hasNonWS l = true ∧
        ∃ fs, s.fields = some fs ∧ (splitWS l).length ≠ fs.length ∧
          s₁.diags = s.diags ++
            [⟨i + 1, strTake l 50, fs.length, (splitWS l).length⟩]) := by
  unfold step at h
  split at h
  · split at h
    · dsimp only at h
      split at h
      · cases h; exact .inl rfl
      · cases h
    · cases h; exact .inl rfl
  · next hnh =>
    split at h
    · next fs hfs =>
      split at h
      · next hcond =>
        dsimp only at h
        split at h
        · cases h; exact .inl rfl
        · next hlen =>
          cases h
          refine .inr ⟨Bool.eq_false_iff.mpr hnh, ?_, fs, hfs, hlen, rfl⟩
          exact (Bool.and_eq_true .. ▸ hcond).2
      · cases h; exact .inl rfl
    · cases h; exact .inl rfl

theorem runLines_count : ∀ (ls : List String) (i : ℕ) (s s' : PState),
    runLines i s ls = .ok s' →
    s'.data.length + s'.diags.length
      = s.data.length + s.diags.length + countDataLines (fieldsTruthy s.fields) ls := by
  intro ls
  induction ls with
  | nil =>
    intro i s s' h
    cases h
    simp [countDataLines]
  | cons l rest ih =>
    intro i s s' h
    rw [runLines] at h
    cases hstep : step i l s with
    | error e => rw [hstep] at h; cases h
    | ok s₁ =>
      rw [hstep] at h
      have hef := step_effect hstep
      have htr := step_truthy hstep
      have hrec := ih (i + 1) s₁ s' h
      rw [countDataLines]
      cases hh : strStartsWith l "#" with
      | true =>
        rw [hrec, htr, hef, hh]
        simp
      | false =>
        have h2 : strStartsWith l "#Fields:" = false := by
          cases hfd : strStartsWith l "#Fields:"
          · rfl
          · rw [hash_of_fieldsDir hfd] at hh; cases hh
        rw [hrec, htr, hef, hh, h2]
        cases hc : fieldsTruthy s.fields && hasNonWS l <;> (simp [hc]; try omega)

theorem runLines_diags : ∀ (ls : List String) (i : ℕ) (s s' : PState),
    runLines i s ls = .ok s' →
    ∀ d ∈ s'.diags, d ∈ s.diags ∨
      ∃ l ∈ ls, strStartsWith l "#" = false ∧ hasNonWS l = true ∧
        d.excerpt = strTake l 50 ∧ d.got = (splitWS l).length ∧ d.expected ≠ d.got := by
  intro ls
  induction ls with
  | nil =>
    intro i s s' h d hd
    cases h
    exact .inl hd
  | cons l rest ih =>
    intro i s s' h d hd
    rw [runLines] at h
    cases hstep : step i l s with
    | error e => rw [hstep] at h; cases h
    | ok s₁ =>
      rw [hstep] at h
      cases ih (i + 1) s₁ s' h d hd with
      | inr hex =>
        obtain ⟨l', hl', rest'⟩ := hex
        exact .inr ⟨l', List.mem_cons_of_mem _ hl', rest'⟩
      | inl hmem =>
        cases step_diags hstep with
        | inl heq => exact .inl (heq ▸ hmem)
        | inr hnew =>
          obtain ⟨hnh, hnw, fs, hfs, hlen, heq⟩ := hnew
          rw [heq] at hmem
          cases List.mem_append.mp hmem with
          | inl hin => exact .inl hin
          | inr hin =>
            have hd : d = ⟨i + 1, strTake l 50, fs.length, (splitWS l).length⟩ := by
              simpa using hin
            subst hd
            exact .inr ⟨l, List.mem_cons_self l rest, hnh, hnw, rfl, rfl, Ne.symm hlen⟩

theorem runLines_fields : ∀ (ls : List String) (i : ℕ) (s s' : PState),
    runLines i s ls = .ok s' →
    s'.fields = ls.foldl
      (fun acc l => if strStartsWith l "#Fields:" = true
                    then some ((splitWS l).drop 1) else acc) s.fields := by
  intro ls
  induction ls with
  | nil =>
    intro i s s' h
    cases h
    rfl
  | cons l rest ih =>
    intro i s s' h
    rw [runLines] at h
    cases hstep : step i l s with
    | error e => rw [hstep] at h; cases h
    | ok s₁ =>
      rw [hstep] at h
      rw [List.foldl_cons, ← step_fields hstep]
      exact ih (i + 1) s₁ s' h

theorem runLines_error : ∀ (ls : List String) (i : ℕ) (s : PState) (e : PErr),
    runLines i s ls = .error e → ∃ ms, e = .schemaErr ms := by
  intro ls
  induction ls with
  | nil => intro i s e h; cases h
  | cons l rest ih =>
    intro i s e h
    rw [runLines] at h
    cases hstep : step i l s with
    | error e' =>
      rw [hstep] at h
      cases h
      exact step_error hstep
    | ok s₁ =>
      rw [hstep] at h
      exact ih (i + 1) s₁ e h

theorem runLines_pre : ∀ (pre : List String) (rest : List String) (i : ℕ),
    (∀ l ∈ pre, strStartsWith l "#Fields:" = false) →
    runLines i ⟨none, [], []⟩ (pre ++ rest)
      = runLines (i + pre.length) ⟨none, [], []⟩ rest := by
  intro pre
  induction pre with
  | nil => intro rest i _; simp
  | cons l tl ih =>
    intro rest i h
    have hl := h l (List.mem_cons_self l tl)
    have hstep : step i l ⟨none, [], []⟩ = .ok ⟨none, [], []⟩ := by
      unfold step
      cases hh : strStartsWith l "#" with
      | true => simp [hh, hl]
      | false => simp [hh]
    rw [List.cons_append]
    simp only [runLines, hstep]
    rw [ih rest (i + 1) (fun x hx => h x (List.mem_cons_of_mem l hx))]
    congr 1
    simp +arith

theorem runLines_nomismatch {N : ℕ} : ∀ (ls : List String) (i : ℕ) (s s' : PState),
    (∀ l ∈ ls, strStartsWith l "#Fields:" = true → ((splitWS l).drop 1).length = N) →
    (∀ l ∈ ls, strStartsWith l "#" = false → hasNonWS l = true → (splitWS l).length = N) →
    (∀ fs, s.fields = some fs → fs.length = N) →
    runLines i s ls = .ok s' →
    s'.diags = s.diags ∧
      s'.data.length = s.data.length + countDataLines (fieldsTruthy s.fields) ls := by
  intro ls
  induction ls with
  | nil =>
    intro i s s' _ _ _ h
    cases h
    simp [countDataLines]
  | cons l tl ih =>
    intro i s s' hdir hdata hinv h
    rw [runLines] at h
    cases hstep : step i l s with
    | error e => rw [hstep] at h; cases h
    | ok s₁ =>
      rw [hstep] at h
      have htr := step_truthy hstep
      have hinv₁ : ∀ fs, s₁.fields = some fs → fs.length = N := by
        intro fs hfs
        rw [step_fields hstep] at hfs
        by_cases hfd : strStartsWith l "#Fields:" = true
        · rw [if_pos hfd] at hfs
          cases hfs
          exact hdir l (List.mem_cons_self l tl) hfd
        · rw [if_neg hfd] at hfs
          exact hinv fs hfs
      have hrec := ih (i + 1) s₁ s'
        (fun x hx => hdir x (List.mem_cons_of_mem l hx))
        (fun x hx => hdata x (List.mem_cons_of_mem l hx)) hinv₁ h
      rw [htr] at hrec
      rw [countDataLines]
      unfold step at hstep
      cases hh : strStartsWith l "#" with
      | true =>
        rw [hh] at hstep
        simp only [if_true] at hstep
        have hsame : s₁.diags = s.diags ∧ s₁.data = s.data := by
          split at hstep
          · split at hstep
            · cases hstep; exact ⟨rfl, rfl⟩
            · cases hstep
          · cases hstep; exact ⟨rfl, rfl⟩
        rw [hrec.1, hsame.1, hrec.2, hsame.2]
        exact ⟨rfl, by simp⟩
      | false =>
        rw [hh] at hstep
        simp only [Bool.false_eq_true, if_false] at hstep
        have h2 : strStartsWith l "#Fields:" = false := by
          cases hfd : strStartsWith l "#Fields:"
          · rfl
          · rw [hash_of_fieldsDir hfd] at hh; cases hh
        rw [h2, Bool.or_false] at hrec
        simp only [Bool.false_eq_true, if_false]
        cases hfs : s.fields with
        | none =>
          rw [hfs] at hstep hrec
          dsimp only at hstep
          cases hstep
          simp only [fieldsTruthy] at hrec ⊢
          simpa using hrec
        | some fs =>
          rw [hfs] at hstep hrec
          dsimp only at hstep
          simp only [fieldsTruthy] at hrec ⊢
          cases hcond : !fs.isEmpty && hasNonWS l with
          | false =>
            rw [hcond] at hstep
            simp only [Bool.false_eq_true, if_false] at hstep
            cases hstep
            simpa using hrec
          | true =>
            rw [hcond] at hstep
            simp only [if_true] at hstep
            have hnw : hasNonWS l = true := (Bool.and_eq_true .. ▸ hcond).2
            have hlen : (splitWS l).length = fs.length := by
              rw [hdata l (List.mem_cons_self l tl) hh hnw]
              exact (hinv fs hfs).symm
            rw [if_pos hlen] at hstep
            cases hstep
            have h3 : s'.data.length
                = s.data.length + 1 + countDataLines (!fs.isEmpty) tl := by
              simpa using hrec.2
            refine ⟨by simpa using hrec.1, ?_⟩
            simp only [eq_self_iff_true, if_true]
            omega

/-! Lemmas about the whole of parse_iis_log. -/

theorem coerceTable_length (fs : List String) (data : List (List String)) :
    (coerceTable fs data).rows.length = data.length := by
  unfold coerceTable
  split
  · simp [dtColumn]
  · simp

theorem parse_formatErr_iff (lines : List String) :
    parseIISLog lines = .error .formatErr ↔
      ∃ s, runLines 0 ⟨none, [], []⟩ lines = .ok s ∧
        (fieldsTruthy s.fields = false ∨ s.data = []) := by
  unfold parseIISLog
  cases hr : runLines 0 ⟨none, [], []⟩ lines with
  | error e =>
    obtain ⟨ms, hms⟩ := runLines_error _ _ _ _ hr
    subst hms
    dsimp only
    constructor
    · intro h
      exact absurd (Except.error.inj h) (by simp)
    · rintro ⟨s, hs, _⟩
      cases hs
  | ok s =>
    dsimp only
    constructor
    · intro h
      by_cases hc : fieldsTruthy s.fields = false ∨ s.data = []
      · exact ⟨s, rfl, hc⟩
      · exfalso
        rw [if_neg hc] at h
        cases hfs : s.fields with
        | none => exact hc (Or.inl (by rw [hfs]; rfl))
        | some fs =>
          rw [hfs] at h
          dsimp only at h
          split at h
          · exact absurd (Except.error.inj h) (by simp)
          · cases h
    · rintro ⟨s', hs', hc⟩
      have heq : s' = s := (Except.ok.inj hs').symm
      subst heq
      rw [if_pos hc]

theorem parse_dtAbort (lines : List String) (s : PState) (fs : List String)
    (h1 : runLines 0 ⟨none, [], []⟩ lines = .ok s)
    (h2 : s.fields = some fs)
    (h3 : fieldsTruthy s.fields = true)
    (h4 : s.data ≠ [])
    (h5 : "date" ∈ fs ∧ "time" ∈ fs)
    (h6 : ∀ r ∈ s.data, synthDT fs r = none) :
    parseIISLog lines = .error .datetimeErr := by
  unfold parseIISLog
  rw [h1]
  dsimp only
  rw [if_neg (by simp [h3, h4])]
  rw [h2]
  dsimp only
  rw [if_pos ?hcond]
  case hcond =>
    refine ⟨h5, ?_⟩
    rw [List.all_eq_true]
    intro o ho
    obtain ⟨r, hr, hro⟩ := List.mem_map.mp ho
    rw [← hro, h6 r hr]
    rfl

theorem parse_ok_elim (lines : List String) (t : CanonTable) (d : List Diag)
    (h : parseIISLog lines = .ok (t, d)) :
    ∃ s fs, runLines 0 ⟨none, [], []⟩ lines = .ok s ∧ s.fields = some fs ∧
      t = coerceTable fs s.data ∧ d = s.diags := by
  unfold parseIISLog at h
  cases hr : runLines 0 ⟨none, [], []⟩ lines with
  | error e => rw [hr] at h; cases h
  | ok s =>
    rw [hr] at h
    dsimp only at h
    split at h
    · cases h
    · cases hfs : s.fields with
      | none => rw [hfs] at h; cases h
      | some fs =>
        rw [hfs] at h
        dsimp only at h
        split at h
        · cases h
        · exact ⟨s, fs, rfl, hfs, (Prod.mk.inj (Except.ok.inj h)).1.symm,
            (Prod.mk.inj (Except.ok.inj h)).2.symm⟩

/-! Claim C10. -/

/-- C10: every line that comes before the first #Fields: directive -
whatever its token count, blank or not - is discarded silently by the
line loop of parse_iis_log: processing such a block leaves the loop state
untouched (no LogRecord, no skip diagnostic, no schema), and parsing
continues on the remaining lines exactly as if the block were absent. -/
theorem c10_pre_directive_silent (pre rest : List String) (i : ℕ)
    (h : ∀ l ∈ pre, strStartsWith l "#Fields:" = false) :
    runLines i ⟨none, [], []⟩ (pre ++ rest)
      = runLines (i + pre.length) ⟨none, [], []⟩ rest :=
  runLines_pre pre rest i h

/-- Witness for C10: a data-looking line and a comment line before any
directive leave the state untouched. -/
theorem c10_witness :
    (∀ l ∈ (["2024-01-01 00:00:01 /a 200 150", "#Software: IIS"] : List String),
        strStartsWith l "#Fields:" = false)
    ∧ runLines 0 ⟨none, [], []⟩
        (["2024-01-01 00:00:01 /a 200 150", "#Software: IIS"] ++ ["x"])
      = runLines (0 + (["2024-01-01 00:00:01 /a 200 150", "#Software: IIS"] : List String).length)
          ⟨none, [], []⟩ ["x"] :=
  ⟨by decide,
   c10_pre_directive_silent ["2024-01-01 00:00:01 /a 200 150", "#Software: IIS"] ["x"] 0 (by decide)⟩

/-! Claim C8. -/

/-- C8: when line processing completes, accepted rows plus skip
diagnostics account exactly for the data lines checked against a declared
schema - so parsed rows = data lines minus malformed lines, with exactly
one diagnostic per malformed line - and every diagnostic carries the
first 50 characters of its line together with the mismatching expected
and actual token counts. -/
theorem c8_malformed_accounting (lines : List String) (s : PState)
    (h : runLines 0 ⟨none, [], []⟩ lines = .ok s) :
    s.data.length + s.diags.length = countDataLines false lines
    ∧ ∀ d ∈ s.diags, ∃ l ∈ lines,
        strStartsWith l "#" = false ∧ hasNonWS l = true ∧
        d.excerpt = strTake l 50 ∧ d.got = (splitWS l).length ∧
        d.expected ≠ d.got := by
  constructor
  · have hc := runLines_count lines 0 ⟨none, [], []⟩ s h
    simpa [fieldsTruthy] using hc
  · intro d hd
    cases runLines_diags lines 0 ⟨none, [], []⟩ s h d hd with
    | inl hmem => exact absurd hmem (List.not_mem_nil d)
    | inr hex => exact hex

/-- Input for the C8 witness: one good data line and one malformed one. -/
def c8lines : List String :=
  ["#Fields: date time sc-status time-taken cs-uri-stem",
   "2024-01-01 00:00:01 200 150 /a",
   "short line"]

/-- Final loop state on c8lines. -/
def c8state : PState :=
  ⟨some ["date", "time", "sc-status", "time-taken", "cs-uri-stem"],
   [["2024-01-01", "00:00:01", "200", "150", "/a"]],
   [⟨3, "short line", 5, 2⟩]⟩

/-- Witness for C8: on c8lines the loop accepts one row and skips one
malformed line with one diagnostic. -/
theorem c8_witness :
    runLines 0 ⟨none, [], []⟩ c8lines = .ok c8state
    ∧ (c8state.data.length + c8state.diags.length = countDataLines false c8lines
       ∧ ∀ d ∈ c8state.diags, ∃ l ∈ c8lines,
           strStartsWith l "#" = false ∧ hasNonWS l = true ∧
           d.excerpt = strTake l 50 ∧ d.got = (splitWS l).length ∧
           d.expected ≠ d.got) :=
  ⟨by decide, c8_malformed_accounting c8lines c8state (by decide)⟩

/-! Claim C1. -/

/-- C1 (amended): every #Fields: directive line updates the schema, so
after the loop the schema is the one declared by the LAST #Fields: line
of the input (or stays unset when there is none); each data line is
matched against the most recently declared schema, not the first one. -/
theorem c1_last_directive_wins (lines : List String) (s : PState)
    (h : runLines 0 ⟨none, [], []⟩ lines = .ok s) :
    s.fields = lines.foldl
      (fun acc l => if strStartsWith l "#Fields:" = true
                    then some ((splitWS l).drop 1) else acc) none :=
  runLines_fields lines 0 ⟨none, [], []⟩ s h

/-- Input refuting C1 as stated: two #Fields: directives, the second
declaring one extra field, then a six-token data line. -/
def c1lines : List String :=
  ["#Fields: date time sc-status time-taken cs-uri-stem",
   "#Fields: date time sc-status time-taken cs-uri-stem x-extra",
   "2024-01-01 00:00:01 200 150 /a z"]

/-- Counterexample to C1 as stated: the first directive declares five
fields and the data line has six tokens, so under first-wins it would be
skipped; instead the loop accepts it against the second directive's
six-field schema, which is also the final schema - later #Fields: lines
do change the schema the parser uses. -/
theorem c1_counterexample :
    runLines 0 ⟨none, [], []⟩ c1lines
      = .ok ⟨some ["date", "time", "sc-status", "time-taken", "cs-uri-stem", "x-extra"],
             [["2024-01-01", "00:00:01", "200", "150", "/a", "z"]], []⟩
    ∧ ((splitWS "#Fields: date time sc-status time-taken cs-uri-stem").drop 1).length = 5
    ∧ (splitWS "2024-01-01 00:00:01 200 150 /a z").length = 6 := by
  refine ⟨by decide, by decide, by decide⟩

/-- Witness for C1 (amended) on c1lines: the final schema is the second
(last) directive's field list. -/
theorem c1_witness :
    (⟨some ["date", "time", "sc-status", "time-taken", "cs-uri-stem", "x-extra"],
      [["2024-01-01", "00:00:01", "200", "150", "/a", "z"]], []⟩ : PState).fields
      = c1lines.foldl
          (fun acc l => if strStartsWith l "#Fields:" = true
                        then some ((splitWS l).drop 1) else acc) none :=
  c1_last_directive_wins c1lines _ (by decide)

/-! Claim C4. -/

/-- C4 (amended): parse_iis_log fails with the FormatError exactly when
the line loop itself completes (that is, no #Fields: directive aborted it
with the missing-required-fields error) and afterwards either no truthy
schema was established or zero LogRecords were accepted.  In the
remaining cases it either fails earlier with the schema error, aborts
with the datetime error, or returns the table. -/
theorem c4_formatErr_characterization (lines : List String) :
    parseIISLog lines = .error .formatErr ↔
      ∃ s, runLines 0 ⟨none, [], []⟩ lines = .ok s ∧
        (fieldsTruthy s.fields = false ∨ s.data = []) :=
  parse_formatErr_iff lines

/-- Input refuting C4 as stated: a single directive missing the required
fields. -/
def c4lines : List String := ["#Fields: foo"]

/-- Counterexample to C4 as stated: on c4lines zero LogRecords are
produced, so the claim requires the FormatError, yet parse_iis_log raises
the missing-required-fields error instead. -/
theorem c4_counterexample :
    parseIISLog c4lines
      = .error (.schemaErr ["date", "time", "sc-status", "time-taken", "cs-uri-stem"])
    ∧ parseIISLog c4lines ≠ .error .formatErr := by
  refine ⟨by decide, by decide⟩

/-- Input for the C4 witness: a valid directive and no data lines. -/
def c4wlines : List String :=
  ["#Fields: date time sc-status time-taken cs-uri-stem"]

/-- Witness for C4 (amended): with a schema but zero records the parser
fails with the FormatError. -/
theorem c4_witness : parseIISLog c4wlines = .error .formatErr :=
  (c4_formatErr_characterization c4wlines).mpr
    ⟨⟨some ["date", "time", "sc-status", "time-taken", "cs-uri-stem"], [], []⟩,
     by decide, by decide⟩

/-! Claim C2. -/

/-- C2 (amended): when a schema and at least one record exist, date and
time are schema columns, and datetime synthesis fails for every record,
parse_iis_log does not return the table with a mere warning: it aborts
with the datetime error (st.error followed by st.stop in the source). -/
theorem c2_all_datetime_failed_aborts (lines : List String) (s : PState)
    (fs : List String)
    (h1 : runLines 0 ⟨none, [], []⟩ lines = .ok s)
    (h2 : s.fields = some fs)
    (h3 : fieldsTruthy s.fields = true)
    (h4 : s.data ≠ [])
    (h5 : "date" ∈ fs ∧ "time" ∈ fs)
    (h6 : ∀ r ∈ s.data, synthDT fs r = none) :
    parseIISLog lines = .error .datetimeErr :=
  parse_dtAbort lines s fs h1 h2 h3 h4 h5 h6

/-- Input refuting C2 as stated: a well-formed record whose date and time
values no datetime parse accepts. -/
def c2lines : List String :=
  ["#Fields: date time sc-status time-taken cs-uri-stem",
   "baddate badtime 200 150 /a"]

/-- Counterexample to C2 as stated: every synthesised datetime on c2lines
is null, and parse_iis_log aborts with an error instead of returning the
CanonicalTable with a non-fatal warning. -/
theorem c2_counterexample :
    parseIISLog c2lines = .error .datetimeErr
    ∧ ∀ t d, parseIISLog c2lines ≠ .ok (t, d) := by
  refine ⟨by decide, ?_⟩
  intro t d h
  rw [(by decide : parseIISLog c2lines = .error .datetimeErr)] at h
  cases h

/-- Witness for C2 (amended) on c2lines, discharging every hypothesis at
the concrete loop state. -/
theorem c2_witness : parseIISLog c2lines = .error .datetimeErr :=
  c2_all_datetime_failed_aborts c2lines
    ⟨some ["date", "time", "sc-status", "time-taken", "cs-uri-stem"],
     [["baddate", "badtime", "200", "150", "/a"]], []⟩
    ["date", "time", "sc-status", "time-taken", "cs-uri-stem"]
    (by decide) (by decide) (by decide) (by decide) (by decide) (by decide)

/-! Claim C3. -/

/-- C3 (amended): when every #Fields: directive of the input declares
exactly N fields and every data line splits into exactly N tokens, a
successful parse returns one canonical row per schema-checked data line
and no skip diagnostic; and the coercion stage never changes the number
of rows on any input - it only rewrites cells. -/
theorem c3_row_count (lines : List String) (N : ℕ)
    (hdir : ∀ l ∈ lines, strStartsWith l "#Fields:" = true →
        ((splitWS l).drop 1).length = N)
    (hdata : ∀ l ∈ lines, strStartsWith l "#" = false → hasNonWS l = true →
        (splitWS l).length = N) :
    (∀ t d, parseIISLog lines = .ok (t, d) →
        t.rows.length = countDataLines false lines ∧ d = [])
    ∧ ∀ fs data, (coerceTable fs data).rows.length = data.length := by
  constructor
  · intro t d h
    obtain ⟨s, fs, hr, hfs, ht, hd⟩ := parse_ok_elim lines t d h
    have hnm := runLines_nomismatch lines 0 ⟨none, [], []⟩ s hdir hdata
      (by intro fs' hfs'; cases hfs') hr
    have h2 : s.data.length = countDataLines false lines := by
      simpa [fieldsTruthy] using hnm.2
    constructor
    · rw [ht, coerceTable_length, h2]
    · rw [hd, hnm.1]
  · exact fun fs data => coerceTable_length fs data

/-- Input for the C3 witness: the specification scenario line. -/
def c3wlines : List String :=
  ["#Fields: date time cs-uri-stem sc-status time-taken",
   "2024-01-01 00:00:01 /a 200 150"]

/-- Witness for C3 (amended) on c3wlines with N = 5. -/
theorem c3_witness :
    (∀ t d, parseIISLog c3wlines = .ok (t, d) →
        t.rows.length = countDataLines false c3wlines ∧ d = [])
    ∧ ∀ fs data, (coerceTable fs data).rows.length = data.length :=
  c3_row_count c3wlines 5 (by decide) (by decide)

/-- Input refuting C3 as stated: the first directive declares five
fields, both data lines carry five tokens, but a second directive with
six fields intervenes. -/
def c3xlines : List String :=
  ["#Fields: date time cs-uri-stem sc-status time-taken",
   "2024-01-01 00:00:01 /a 200 150",
   "#Fields: date time cs-uri-stem sc-status time-taken x-extra",
   "2024-01-02 00:00:02 /b 200 150"]

/-- Counterexample to C3 as stated: on c3xlines the first honored
directive declares N = 5 fields and both data lines have exactly 5
tokens, yet the resulting CanonicalTable has 1 row, not 2 - the second
data line is dropped against the later six-field schema. -/
theorem c3_counterexample :
    (parseIISLog c3xlines).toOption.map (fun p => p.1.rows.length) = some 1
    ∧ (∀ l ∈ c3xlines, strStartsWith l "#" = false → hasNonWS l = true →
        (splitWS l).length = 5)
    ∧ ((splitWS "#Fields: date time cs-uri-stem sc-status time-taken").drop 1).length = 5 := by
  refine ⟨by with_unfolding_all rfl, by decide, by decide⟩

/-! Claim C9. -/

/-- C9: in a row whose column j is named time-taken, the cell after the
numeric-coercion pass followed by the rescale pass holds exactly the
parsed value divided by 1000, and a cell whose parse failed stays null
through the rescale. -/
theorem c9_rescale_div_1000 (fs raw : List String) (j : ℕ) (v : String)
    (hj : fs[j]? = some "time-taken") (hv : raw[j]? = some v) :
    (rescaleRow fs (coerceNumRow fs raw))[j]?
      = some (Cell.num ((toNumeric v).map (fun q => q / 1000)))
    ∧ (toNumeric v = none →
        (rescaleRow fs (coerceNumRow fs raw))[j]? = some (Cell.num none)) := by
  have hcell : (coerceNumRow fs raw)[j]? = some (Cell.num (toNumeric v)) := by
    rw [coerceNumRow, List.getElem?_zipWith, hj, hv]
    simp [numericCols]
  have hmain : (rescaleRow fs (coerceNumRow fs raw))[j]?
      = some (Cell.num ((toNumeric v).map (fun q => q / 1000))) := by
    rw [rescaleRow, List.getElem?_zipWith, hj, hcell]
    simp
  refine ⟨hmain, fun hnone => ?_⟩
  rw [hmain, hnone]
  rfl

/-- Witness for C9 at the scenario row: the 150 millisecond cell becomes
150 divided by 1000 and a non-numeric cell stays null. -/
theorem c9_witness :
    ((["date", "time", "cs-uri-stem", "sc-status", "time-taken"] : List String)[4]?
        = some "time-taken")
    ∧ ((["2024-01-01", "00:00:01", "/a", "200", "150"] : List String)[4]? = some "150")
    ∧ ((rescaleRow ["date", "time", "cs-uri-stem", "sc-status", "time-taken"]
          (coerceNumRow ["date", "time", "cs-uri-stem", "sc-status", "time-taken"]
            ["2024-01-01", "00:00:01", "/a", "200", "150"]))[4]?
        = some (Cell.num ((toNumeric "150").map (fun q => q / 1000)))
       ∧ (toNumeric "150" = none →
          (rescaleRow ["date", "time", "cs-uri-stem", "sc-status", "time-taken"]
            (coerceNumRow ["date", "time", "cs-uri-stem", "sc-status", "time-taken"]
              ["2024-01-01", "00:00:01", "/a", "200", "150"]))[4]?
            = some (Cell.num none))) :=
  ⟨by decide, by decide,
   c9_rescale_div_1000 ["date", "time", "cs-uri-stem", "sc-status", "time-taken"]
     ["2024-01-01", "00:00:01", "/a", "200", "150"] 4 "150" (by decide) (by decide)⟩

/-! Claim C5. -/

/-- C5 (amended): the status summary has exactly one row per distinct
NON-NULL sc-status value of the table - rows whose sc-status is null are
dropped by the groupby and form no extra group - and each summary row
carries the size of its group together with the mean, max and min of the
non-null time-taken values within the group. -/
theorem c5_summary_groups (df : DF) :
    ((generateSummary df).map SRow.status).Nodup
    ∧ (∀ q : ℚ, q ∈ (generateSummary df).map SRow.status ↔
        ∃ r ∈ df.rows, r.scStatus = some q)
    ∧ (generateSummary df).length
        = (df.rows.filterMap DRow.scStatus).toFinset.card
    ∧ ∀ row ∈ generateSummary df,
        row.count = (df.rows.filter (fun r => r.scStatus == some row.status)).length
        ∧ row.avgTime = meanOpt ((df.rows.filter
            (fun r => r.scStatus == some row.status)).filterMap DRow.timeTaken)
        ∧ row.maxTime = maxOpt ((df.rows.filter
            (fun r => r.scStatus == some row.status)).filterMap DRow.timeTaken)
        ∧ row.minTime = minOpt ((df.rows.filter
            (fun r => r.scStatus == some row.status)).filterMap DRow.timeTaken) := by
  have hkeys : (generateSummary df).map SRow.status
      = sortL (df.rows.filterMap DRow.scStatus).dedup := by
    unfold generateSummary
    rw [List.map_map]
    exact List.map_id'' (fun x => rfl) _
  refine ⟨?_, ?_, ?_, ?_⟩
  · rw [hkeys]
    exact nodup_sortL (List.nodup_dedup _)
  · intro q
    rw [hkeys, mem_sortL, List.mem_dedup, List.mem_filterMap]
  · have hlen : (generateSummary df).length
        = ((generateSummary df).map SRow.status).length := by simp
    rw [hlen, hkeys, length_sortL, List.card_toFinset]
  · intro row hrow
    obtain ⟨s, _, hmk⟩ := List.mem_map.mp hrow
    subst hmk
    exact ⟨rfl, rfl, rfl, rfl⟩

/-- Table refuting C5 as stated: one row with status 200 and one row with
a null status. -/
def c5xdf : DF :=
  ⟨["sc-status", "cs-uri-stem", "time-taken"],
   [⟨some 200, "/a", some 1⟩, ⟨none, "/b", some 2⟩]⟩

/-- Counterexample to C5 as stated: c5xdf holds a null-status row, so the
claim demands two summary rows (status 200 plus one null group), but
generate_summary produces exactly one - null statuses are excluded, not
grouped. -/
theorem c5_counterexample :
    (generateSummary c5xdf).length = 1
    ∧ (∃ r ∈ c5xdf.rows, r.scStatus = none) := by
  refine ⟨by with_unfolding_all decide, ?_⟩
  exact ⟨⟨none, "/b", some 2⟩, by decide, rfl⟩

/-- Table for the C5 witness: two statuses, one group with a null
time-taken value. -/
def c5wdf : DF :=
  ⟨["sc-status", "cs-uri-stem", "time-taken"],
   [⟨some 200, "/a", some 1⟩, ⟨some 500, "/b", none⟩, ⟨some 200, "/c", some 3⟩]⟩

/-- Witness for C5 (amended), instantiating the theorem at c5wdf. -/
theorem c5_witness :
    ((generateSummary c5wdf).map SRow.status).Nodup
    ∧ (∀ q : ℚ, q ∈ (generateSummary c5wdf).map SRow.status ↔
        ∃ r ∈ c5wdf.rows, r.scStatus = some q)
    ∧ (generateSummary c5wdf).length
        = (c5wdf.rows.filterMap DRow.scStatus).toFinset.card
    ∧ ∀ row ∈ generateSummary c5wdf,
        row.count = (c5wdf.rows.filter (fun r => r.scStatus == some row.status)).length
        ∧ row.avgTime = meanOpt ((c5wdf.rows.filter
            (fun r => r.scStatus == some row.status)).filterMap DRow.timeTaken)
        ∧ row.maxTime = maxOpt ((c5wdf.rows.filter
            (fun r => r.scStatus == some row.status)).filterMap DRow.timeTaken)
        ∧ row.minTime = minOpt ((c5wdf.rows.filter
            (fun r => r.scStatus == some row.status)).filterMap DRow.timeTaken) :=
  c5_summary_groups c5wdf

/-! Claim C6. -/

/-- C6: the error rollup is None exactly when no row has sc-status at
least 500 (a soft-skip, not an error); otherwise its endpoints are
exactly those with at least one such row, and each error count is the
exact number of error rows of that endpoint. -/
theorem c6_error_rollup (df : DF) :
    (getErrorApps df = none ↔ ∀ r ∈ df.rows, ¬isErrRow r = true)
    ∧ ∀ roll, getErrorApps df = some roll →
        (∀ e : String, (∃ row ∈ roll, row.endpoint = e) ↔
          ∃ r ∈ df.rows, isErrRow r = true ∧ r.csUriStem = e)
        ∧ ∀ row ∈ roll,
            row.errorCount = (df.rows.filter
              (fun r => isErrRow r && r.csUriStem == row.endpoint)).length := by
  have hiff : (df.rows.filter isErrRow).isEmpty = true ↔
      ∀ r ∈ df.rows, ¬isErrRow r = true := by
    rw [List.isEmpty_eq_true, List.filter_eq_nil_iff]
  constructor
  · constructor
    · intro hnone
      unfold getErrorApps at hnone
      by_cases hemp : (df.rows.filter isErrRow).isEmpty = true
      · exact hiff.mp hemp
      · rw [if_neg hemp] at hnone
        cases hnone
    · intro hall
      unfold getErrorApps
      rw [if_pos (hiff.mpr hall)]
  · intro roll hroll
    unfold getErrorApps at hroll
    by_cases hemp : (df.rows.filter isErrRow).isEmpty = true
    · rw [if_pos hemp] at hroll
      cases hroll
    · rw [if_neg hemp] at hroll
      have hroll' : roll
          = (sortL ((df.rows.filter isErrRow).map DRow.csUriStem).dedup).map
              (fun e =>
                let g := (df.rows.filter isErrRow).filter (fun r => r.csUriStem == e)
                ⟨e, g.length, meanOpt (g.filterMap DRow.timeTaken),
                 maxOpt (g.filterMap DRow.timeTaken)⟩) :=
        (Option.some.inj hroll).symm
      subst hroll'
      constructor
      · intro e
        constructor
        · rintro ⟨row, hrow, hend⟩
          obtain ⟨e', he', hmk⟩ := List.mem_map.mp hrow
          subst hmk
          rw [mem_sortL, List.mem_dedup, List.mem_map] at he'
          obtain ⟨r, hr, hcs⟩ := he'
          rw [List.mem_filter] at hr
          exact ⟨r, hr.1, hr.2, by rw [hcs]; exact hend⟩
        · rintro ⟨r, hr, herr, hcs⟩
          have hkey : e ∈ sortL ((df.rows.filter isErrRow).map DRow.csUriStem).dedup := by
            rw [mem_sortL, List.mem_dedup, List.mem_map]
            exact ⟨r, List.mem_filter.mpr ⟨hr, herr⟩, hcs⟩
          exact ⟨_, List.mem_map.mpr ⟨e, hkey, rfl⟩, rfl⟩
      · intro row hrow
        obtain ⟨e, _, hmk⟩ := List.mem_map.mp hrow
        subst hmk
        show ((df.rows.filter isErrRow).filter (fun r => r.csUriStem == e)).length = _
        rw [List.filter_filter]
        exact congrArg List.length
          (List.filter_congr (fun x _ => by rw [Bool.and_comm]))

/-- Table for the C6 witness: two error rows on one endpoint (one with a
null time-taken) and one healthy row. -/
def c6wdf : DF :=
  ⟨["sc-status", "cs-uri-stem", "time-taken"],
   [⟨some 500, "/a", some 1⟩, ⟨some 200, "/b", some 2⟩, ⟨some 503, "/a", none⟩]⟩

/-- The rollup get_error_apps produces on c6wdf. -/
def c6wroll : List ERow := [⟨"/a", 2, some 1, some 1⟩]

/-- Witness for C6 at c6wdf, discharging the rollup hypothesis on the
concrete rollup value. -/
theorem c6_witness :
    getErrorApps c6wdf = some c6wroll
    ∧ ((∀ e : String, (∃ row ∈ c6wroll, row.endpoint = e) ↔
          ∃ r ∈ c6wdf.rows, isErrRow r = true ∧ r.csUriStem = e)
       ∧ ∀ row ∈ c6wroll,
           row.errorCount = (c6wdf.rows.filter
             (fun r => isErrRow r && r.csUriStem == row.endpoint)).length) :=
  ⟨by with_unfolding_all rfl,
   (c6_error_rollup c6wdf).2 c6wroll (by with_unfolding_all rfl)⟩

/-! Claim C7. -/

/-- C7 (amended): every cell of the pivot for an observed endpoint and an
observed status that never occur together holds count 0, mean 0 and max 0
(the fill_value), and the call-site guard soft-skips the pivot when
cs-uri-stem is absent; but when cs-uri-stem is present and sc-status (or
time-taken) is missing, create_pivot_table raises a KeyError instead of
soft-skipping - a case no table produced by parse_iis_log can reach,
since the required-fields check guarantees all three columns. -/
theorem c7_pivot_zero_fill (df : DF) :
    ("cs-uri-stem" ∉ df.cols → pivotStep df = .ok none)
    ∧ ∀ p, createPivotTable df = .ok p →
        ∀ pr ∈ p.prows, ∀ c ∈ pr.cells,
          (∀ r ∈ df.rows, ¬(r.csUriStem = pr.endpoint ∧ r.scStatus = some c.status)) →
          c.cnt = 0 ∧ c.meanFilled = 0 ∧ c.maxFilled = 0 := by
  constructor
  · intro hno
    unfold pivotStep
    rw [if_neg hno]
  · intro p hp pr hpr c hc hnone
    unfold createPivotTable at hp
    split at hp
    · split at hp
      · split at hp
        · dsimp only at hp
          cases hp
          obtain ⟨e, _, hmk⟩ := List.mem_map.mp hpr
          subst hmk
          obtain ⟨s, _, hmkc⟩ := List.mem_map.mp hc
          subst hmkc
          have hfil : df.rows.filter
              (fun r => r.csUriStem == e && r.scStatus == some s) = [] := by
            rw [List.filter_eq_nil_iff]
            intro r hr hpred
            rw [Bool.and_eq_true, beq_iff_eq, beq_iff_eq] at hpred
            exact hnone r hr ⟨hpred.1, hpred.2⟩
          show (cellAgg df.rows e s).cnt = 0 ∧ _
          unfold cellAgg
          rw [hfil]
          exact ⟨rfl, rfl, rfl⟩
        · cases hp
      · cases hp
    · cases hp

/-- Frame refuting the soft-skip half of C7 as stated: cs-uri-stem is
present but sc-status is missing. -/
def c7xdf : DF := ⟨["cs-uri-stem"], [⟨none, "/a", none⟩]⟩

/-- Counterexample to C7 as stated: with sc-status absent (and
cs-uri-stem present) the guarded pivot step raises a KeyError rather than
returning nothing. -/
theorem c7_counterexample :
    pivotStep c7xdf = .error "KeyError: sc-status"
    ∧ pivotStep c7xdf ≠ .ok none := by
  refine ⟨by decide, by decide⟩

/-- Frame for the C7 witness: two endpoints and two statuses, observed on
disjoint rows, so two pairs are never observed. -/
def c7wdf : DF :=
  ⟨["cs-uri-stem", "sc-status", "time-taken"],
   [⟨some 200, "/a", some 1⟩, ⟨some 500, "/b", some 2⟩]⟩

/-- The pivot create_pivot_table computes on c7wdf. -/
def c7wpivot : Pivot :=
  ⟨[200, 500],
   [⟨"/a", [⟨200, 1, 1, 1⟩, ⟨500, 0, 0, 0⟩]⟩,
    ⟨"/b", [⟨200, 0, 0, 0⟩, ⟨500, 1, 2, 2⟩]⟩]⟩

/-- Witness for C7 (amended): the pair (endpoint /a, status 500) is never
observed in c7wdf, and its pivot cell is zero-filled in all of the count,
mean and max positions. -/
theorem c7_witness :
    createPivotTable c7wdf = .ok c7wpivot
    ∧ (⟨"/a", [⟨200, 1, 1, 1⟩, ⟨500, 0, 0, 0⟩]⟩ : PRow) ∈ c7wpivot.prows
    ∧ (⟨500, 0, 0, 0⟩ : PCell) ∈
        (⟨"/a", [⟨200, 1, 1, 1⟩, ⟨500, 0, 0, 0⟩]⟩ : PRow).cells
    ∧ (∀ r ∈ c7wdf.rows, ¬(r.csUriStem = "/a" ∧ r.scStatus = some 500))
    ∧ ((⟨500, 0, 0, 0⟩ : PCell).cnt = 0
       ∧ (⟨500, 0, 0, 0⟩ : PCell).meanFilled = 0
       ∧ (⟨500, 0, 0, 0⟩ : PCell).maxFilled = 0) :=
  ⟨by with_unfolding_all rfl, by decide, by decide, by decide,
   (c7_pivot_zero_fill c7wdf).2 c7wpivot (by with_unfolding_all rfl)
     ⟨"/a", [⟨200, 1, 1, 1⟩, ⟨500, 0, 0, 0⟩]⟩ (by decide)
     ⟨500, 0, 0, 0⟩ (by decide)
     (by decide)⟩

end IISLog
